import Mathlib

/-!
Verification development for the manifest-tool repository (src/main.rs).

The program derives local override manifests from upstream manifests plus a
layered configuration (per-user config file, then CLI overrides), with
variable substitution keyed by the remote name, and has a secondary bulk
templating mode that renders one template per project.

The shallow embedding below follows src/main.rs.  The variable-substitution
engine (the external envsubst crate) and the manifest data accessors (the
external git-repo-manifest crate) are not part of the repository; those parts
are modelled from the specification and are marked as such in their doc
comments.  Everything else is translated directly from the source.
-/

set_option autoImplicit false

namespace ManifestTool

/-- Error enumeration of src/main.rs (the quick_error Error enum): I/O,
deserialization, envsubst, config-file-format and fetch-required failures.
Payloads of the external error types are modelled as strings. -/
inductive SubstError where
  | MissingBrace (part : String)
  | UnknownVariable (name : String)
deriving DecidableEq

/-- Main error type of src/main.rs. -/
inductive Error where
  | IoErr (msg : String)
  | Deserialization (msg : String)
  | Envsubst (e : SubstError)
  | ConfigFileFormat
  | FetchRequired
deriving DecidableEq

/-- Result of running a piece of code that can also panic (the source uses
`.unwrap()` on one parse result, which aborts the process outside the
Result error channel). -/
inductive RunResult (α : Type) where
  | ok (a : α)
  | err (e : Error)
  | panicked
deriving DecidableEq

/-- Modelled from the spec: the enumerated review-protocol tag set with a
parse function that fails on unrecognized text (git_repo_manifest's
ReviewProtocolType, external to this repository; representative tags). -/
inductive ReviewProtocolType where
  | http
  | https
  | ssh
deriving DecidableEq

/-- Modelled from the spec: FromStr for the enumerated review-protocol tags;
unrecognized text fails to parse. -/
def ReviewProtocolType.from_str (s : String) : Option ReviewProtocolType :=
  if s = "http" then some ReviewProtocolType.http
  else if s = "https" then some ReviewProtocolType.https
  else if s = "ssh" then some ReviewProtocolType.ssh
  else none

/-- Remote of the git-repo-manifest crate as used by src/main.rs:
Remote::new(name, alias, pushurl, fetch, review, revision, review_protocol,
override).  Only plain field accessors are used by the source. -/
structure Remote where
  name : String
  aliasName : Option String
  pushurl : Option String
  fetch : String
  review : Option String
  revision : Option String
  review_protocol : Option ReviewProtocolType
  override_flag : Option Bool
deriving DecidableEq

/-- Project of the manifest: a name and an optional remote reference. -/
structure Project where
  name : String
  remote : Option String
deriving DecidableEq

/-- Manifest data consumed by src/main.rs: remotes, projects and the
manifest-level default remote used by set_defaults. -/
structure ManifestData where
  default_remote : Option String
  remotes : List Remote
  projects : List Project
deriving DecidableEq

/-- Modelled from the spec: Manifest::set_defaults of the external manifest
crate fills a project's missing remote field from the manifest default. -/
def ManifestData.set_defaults (m : ManifestData) : ManifestData :=
  { m with
    projects := m.projects.map (fun p =>
      { p with remote := p.remote.orElse (fun _ => m.default_remote) }) }

/-- Command-line arguments of src/main.rs (the gumdrop Args struct). -/
structure CliArgs where
  push_url : Option String
  fetch_url : Option String
  review_url : Option String
  override_dup : Bool
  review_protocol : Option ReviewProtocolType
  envsubst_all_projects : Option String
  manifest_files : List String
deriving DecidableEq

/-- A string-keyed map (Rust HashMap<String, String>), modelled as an
association list where the first matching key wins; insertion prepends, so
a later insert shadows an earlier binding, matching HashMap overwrite. -/
abbrev ConfigMap := List (String × String)

/-- HashMap::get. -/
def ConfigMap.get : ConfigMap → String → Option String
  | [], _ => none
  | (k', v) :: rest, k => if k' = k then some v else ConfigMap.get rest k

/-- HashMap::insert (observably: the new binding shadows any old one). -/
def ConfigMap.insert (m : ConfigMap) (k v : String) : ConfigMap :=
  (k, v) :: m

/-- HashMap::extend: insert every pair of the second map in order, so the
second map's bindings win over the first map's. -/
def ConfigMap.extend (m other : ConfigMap) : ConfigMap :=
  other.foldl (fun acc p => ConfigMap.insert acc p.1 p.2) m

/-! ### Variable substitution engine

Modelled from the spec (the envsubst crate is external to the repository):
every `${name}` placeholder is replaced by its context value; a placeholder
naming a variable absent from the context, or a malformed placeholder, is a
substitution error and no output is produced (all-or-nothing). -/

/-- Split a character list at every occurrence of the two-character
placeholder opener (dollar followed by open brace), like String::split on
that pattern: the result is the leading literal segment followed by one
segment per placeholder opener. -/
def splitTemplateChars : List Char → List (List Char)
  | [] => [[]]
  | '$' :: '{' :: rest => [] :: splitTemplateChars rest
  | c :: rest =>
    match splitTemplateChars rest with
    | [] => [[c]]
    | h :: t => (c :: h) :: t

/-- Split a character list at the first occurrence of a delimiter,
returning the parts before and after it. -/
def splitOnceChars (d : Char) : List Char → Option (List Char × List Char)
  | [] => none
  | c :: rest =>
    if c = d then some ([], rest)
    else (splitOnceChars d rest).map (fun p => (c :: p.1, p.2))

/-- Modelled from the spec: resolve one placeholder segment (the text
following a placeholder opener): the variable name runs up to the closing
brace; a missing closing brace is malformed, an unknown variable is a
substitution error, otherwise the value replaces the placeholder and the
rest of the segment is kept verbatim. -/
def substPart (ctx : ConfigMap) (part : List Char) : Except SubstError (List Char) :=
  match splitOnceChars '}' part with
  | none => .error (SubstError.MissingBrace (String.mk part))
  | some (nm, tail) =>
    match ConfigMap.get ctx (String.mk nm) with
    | none => .error (SubstError.UnknownVariable (String.mk nm))
    | some v => .ok (v.data ++ tail)

/-- Resolve every placeholder segment, failing on the first error. -/
def substParts (ctx : ConfigMap) : List (List Char) → Except SubstError (List (List Char))
  | [] => .ok []
  | p :: rest =>
    match substPart ctx p, substParts ctx rest with
    | .error e, _ => .error e
    | .ok _, .error e => .error e
    | .ok s, .ok t => .ok (s :: t)

/-- Modelled from the spec: envsubst::substitute.  Pure function of
(template, context); produces the fully substituted string, or an error and
no output (all-or-nothing over the whole input string). -/
def substitute (tmpl : String) (ctx : ConfigMap) : Except SubstError String :=
  match splitTemplateChars tmpl.data with
  | [] => .ok tmpl
  | first :: rest =>
    match substParts ctx rest with
    | .error e => .error e
    | .ok parts => .ok (String.mk (first ++ parts.flatten))

/-- Names of the variables referenced by the well-formed placeholders of a
template, in order of occurrence. -/
def templateRefs (tmpl : String) : List String :=
  match splitTemplateChars tmpl.data with
  | [] => []
  | _ :: rest =>
    rest.filterMap (fun part => (splitOnceChars '}' part).map (fun p => String.mk p.1))

/-- Whether a substitution result is an error (no output produced). -/
def isSubstError (x : Except SubstError String) : Bool :=
  match x with
  | .error _ => true
  | .ok _ => false

/-! ### Config-file parsing (src/main.rs lines 63-79) -/

/-- split_once of src/main.rs: split a string at the first occurrence of the
delimiter, returning the text before and after it. -/
def split_once (s : String) (delim : Char) : Option (String × String) :=
  (splitOnceChars delim s.data).map (fun p => (String.mk p.1, String.mk p.2))

/-- Lines of a string as produced by Rust BufRead::lines: split at each
newline, strip a trailing carriage return from each line, and do not yield
a final empty line for a trailing newline. -/
def stripCR (l : List Char) : List Char :=
  match l.getLast? with
  | some c => if c = '\r' then l.dropLast else l
  | none => l

/-- Split a character list at every occurrence of a delimiter character
(like String::split). -/
def splitOnChar (d : Char) : List Char → List (List Char)
  | [] => [[]]
  | c :: rest =>
    if c = d then [] :: splitOnChar d rest
    else
      match splitOnChar d rest with
      | [] => [[c]]
      | h :: t => (c :: h) :: t

/-- BufRead::lines over a string. -/
def stringLines (s : String) : List String :=
  let parts := splitOnChar '\n' s.data
  let parts := if parts.getLast? = some [] then parts.dropLast else parts
  parts.map (fun l => String.mk (stripCR l))

/-- Loop body of read_dot_env: fold the lines into the map, failing with
ConfigFileFormat on the first line lacking the delimiter. -/
def read_dot_env_go (map : ConfigMap) : List String → Except Error ConfigMap
  | [] => .ok map
  | line :: rest =>
    match split_once line '=' with
    | some (k, v) => read_dot_env_go (ConfigMap.insert map k v) rest
    | none => .error Error.ConfigFileFormat

/-- read_dot_env of src/main.rs: parse key=value lines into a map; a line
without the delimiter is a ConfigFileFormat error for the whole input. -/
def read_dot_env (lines : List String) : Except Error ConfigMap :=
  read_dot_env_go [] lines

/-! ### Config Overlay Resolver (src/main.rs lines 158-208, per remote) -/

/-- Substitute an optional CLI field through the context and insert it under
the given key (src/main.rs lines 165-182); absent fields leave the map
unchanged. -/
def insertSubst (context : ConfigMap) (key : String) (field : Option String)
    (m : ConfigMap) : Except SubstError ConfigMap :=
  match field with
  | none => .ok m
  | some u => (substitute u context).map (fun su => ConfigMap.insert m key su)

/-- Insert an optional field raw (no substitution) under the given key. -/
def insertRaw (key : String) (field : Option String) (m : ConfigMap) : ConfigMap :=
  match field with
  | none => m
  | some u => ConfigMap.insert m key u

/-- CLI override map of src/main.rs lines 164-189.  The push, fetch and
review URLs are substituted through the remote context; the review_protocol
entry mirrors source line 184, which matches on args.review_url (not
args.review_protocol) and inserts its value without substitution. -/
def buildArgsMap (cli : CliArgs) (context : ConfigMap) : Except SubstError ConfigMap :=
  match insertSubst context "push_url" cli.push_url [] with
  | .error e => .error e
  | .ok m1 =>
    match insertSubst context "fetch_url" cli.fetch_url m1 with
    | .error e => .error e
    | .ok m2 =>
      match insertSubst context "review_url" cli.review_url m2 with
      | .error e => .error e
      | .ok m3 => .ok (insertRaw "review_protocol" cli.review_url m3)

/-- Steps 1-5 of the Config Overlay Resolver for one remote name: build the
context, substitute the config text through it, parse it as key=value
lines, build the CLI override map and extend the parsed map with it. -/
def resolveMapping (configStr : String) (cli : CliArgs) (name : String) :
    Except Error ConfigMap :=
  let context : ConfigMap := [("remote_name", name)]
  match substitute configStr context with
  | .error e => .error (Error.Envsubst e)
  | .ok config_subst =>
    match read_dot_env (stringLines config_subst) with
    | .error e => .error e
    | .ok config =>
      match buildArgsMap cli context with
      | .error e => .error (Error.Envsubst e)
      | .ok argsMap => .ok (ConfigMap.extend config argsMap)

/-- Step 6 (src/main.rs lines 192-208): require a fetch_url key, then build
the override Remote; the review_protocol value is parsed with from_str and
unwrapped, so unrecognized text panics. -/
def mkRemote (config : ConfigMap) (name : String) : RunResult Remote :=
  match ConfigMap.get config "fetch_url" with
  | none => .err Error.FetchRequired
  | some fetch_url =>
    match ConfigMap.get config "review_protocol" with
    | none =>
      .ok ⟨name, none, ConfigMap.get config "push_url", fetch_url,
        ConfigMap.get config "review_url", none, none, some true⟩
    | some s =>
      match ReviewProtocolType.from_str s with
      | none => .panicked
      | some p =>
        .ok ⟨name, none, ConfigMap.get config "push_url", fetch_url,
          ConfigMap.get config "review_url", none, some p, some true⟩

/-- Full resolution of one remote: mapping then Remote construction. -/
def resolveRemote (configStr : String) (cli : CliArgs) (name : String) :
    RunResult Remote :=
  match resolveMapping configStr cli name with
  | .error e => .err e
  | .ok m => mkRemote m name

/-- Resolve the remotes of one manifest in declaration order, aborting on
the first error or panic (src/main.rs lines 158-209). -/
def resolveRemotes (configStr : String) (cli : CliArgs) :
    List String → RunResult (List Remote)
  | [] => .ok []
  | n :: rest =>
    match resolveRemote configStr cli n with
    | .err e => .err e
    | .panicked => .panicked
    | .ok r =>
      match resolveRemotes configStr cli rest with
      | .err e => .err e
      | .panicked => .panicked
      | .ok rs => .ok (r :: rs)

/-! ### Local-Manifest Generation Pipeline (src/main.rs lines 142-226) -/

/-- State of one output path under .repo/local_manifests after processing
its source file: whether File::create ran on it (creating or truncating
the file), and the serialized local-manifest content if one was written.
Serialization itself is external (quick-xml); the content is modelled as
the list of override Remotes of the constructed Manifest. -/
structure FileState where
  created : Bool
  content : Option (List Remote)
deriving DecidableEq

/-- Process one discovered manifest file (src/main.rs lines 151-224): parse
it, create the output file, resolve every remote, then serialize.  The
output file is created before the remotes are resolved (source line 156),
so resolver failures leave a created-and-truncated output file. -/
def processManifestFile (configStr : String) (cli : CliArgs)
    (parseResult : Except Error ManifestData) : FileState × RunResult Unit :=
  match parseResult with
  | .error e => (⟨false, none⟩, .err e)
  | .ok m =>
    match resolveRemotes configStr cli (m.remotes.map Remote.name) with
    | .err e => (⟨true, none⟩, .err e)
    | .panicked => (⟨true, none⟩, .panicked)
    | .ok rs => (⟨true, some rs⟩, .ok ())

/-- Path::extension of a file name: None when there is no dot, or when the
name starts with its only dot; otherwise the text after the final dot. -/
def pathExtension (name : String) : Option String :=
  match splitOnChar '.' name.data with
  | [] => none
  | [_] => none
  | first :: rest =>
    if first = [] ∧ rest.length = 1 then none
    else (rest.getLast?).map String.mk

/-- One directory entry of .repo/manifests: its file name and the combined
result of opening and parsing it (both external collaborators). -/
structure DirEntry where
  file_name : String
  parse : Except Error ManifestData

/-- Iterate the discovered directory entries (src/main.rs lines 144-225):
entries without an xml extension are skipped; each xml entry is fully
processed before the next; the first error or panic aborts the whole run,
leaving later entries unprocessed. -/
def runEntries (configStr : String) (cli : CliArgs) :
    List DirEntry → List (String × FileState) × RunResult Unit
  | [] => ([], .ok ())
  | e :: rest =>
    if pathExtension e.file_name = some "xml" then
      match processManifestFile configStr cli e.parse with
      | (st, RunResult.ok _) =>
        let r := runEntries configStr cli rest
        ((e.file_name, st) :: r.1, r.2)
      | (st, RunResult.err er) => ([(e.file_name, st)], .err er)
      | (st, RunResult.panicked) => ([(e.file_name, st)], .panicked)
    else runEntries configStr cli rest

/-- Generation pipeline entry (src/main.rs lines 142-227): it only runs
when the free manifest-file argument list is empty, and a failed read_dir
of .repo/manifests is silently skipped (if let Ok). -/
def generationRun (configStr : String) (cli : CliArgs)
    (dir : Option (List DirEntry)) : List (String × FileState) × RunResult Unit :=
  if cli.manifest_files.isEmpty then
    match dir with
    | none => ([], .ok ())
    | some entries => runEntries configStr cli entries
  else ([], .ok ())

/-! ### Bulk Template Pipeline (src/main.rs lines 103-137) -/

/-- Name-to-Remote lookup table built by inserting every remote of the
manifest into a HashMap keyed by name (src/main.rs lines 116-119); a later
remote with the same name overwrites an earlier one. -/
def buildRemoteHash (remotes : List Remote) : List (String × Remote) :=
  remotes.foldl (fun acc r => (r.name, r) :: acc) []

/-- HashMap::get on the remote lookup table. -/
def lookupRemote : List (String × Remote) → String → Option Remote
  | [], _ => none
  | (k, r) :: rest, n => if k = n then some r else lookupRemote rest n

/-- Per-project variable context of the bulk pipeline (src/main.rs lines
123-133): always project_name; remote_name when the project references a
remote; fetch_url (always) and push_url (when the remote declares one)
when that remote is found in the lookup table. -/
def buildProjectContext (remote_hash : List (String × Remote)) (project : Project) :
    ConfigMap :=
  let context : ConfigMap := []
  let context :=
    match project.remote with
    | none => context
    | some remote_name =>
      let context := ConfigMap.insert context "remote_name" remote_name
      match lookupRemote remote_hash remote_name with
      | none => context
      | some remote =>
        let context :=
          match remote.pushurl with
          | none => context
          | some push_url => ConfigMap.insert context "push_url" push_url
        ConfigMap.insert context "fetch_url" remote.fetch
  ConfigMap.insert context "project_name" project.name

/-- Render the template once per project in declaration order, concatenating
the rendered text; the first substitution error aborts the run. -/
def bulkRender (template : String) (remote_hash : List (String × Remote)) :
    List Project → Except Error String
  | [] => .ok ""
  | p :: rest =>
    match substitute template (buildProjectContext remote_hash p) with
    | .error e => .error (Error.Envsubst e)
    | .ok s =>
      match bulkRender template remote_hash rest with
      | .error e => .error e
      | .ok t => .ok (s ++ t)

/-- Bulk pipeline (src/main.rs lines 103-137): read the template, parse the
default manifest, set defaults, build the remote lookup and render every
project; the concatenated stdout text is produced only on full success. -/
def bulkRun (template_open : Except String String)
    (default_manifest : Except Error ManifestData) :
    Option String × RunResult Unit :=
  match template_open with
  | .error e => (none, .err (Error.IoErr e))
  | .ok template =>
    match default_manifest with
    | .error e => (none, .err e)
    | .ok m =>
      let m := m.set_defaults
      let remote_hash := buildRemoteHash m.remotes
      match bulkRender template remote_hash m.projects with
      | .error e => (none, .err e)
      | .ok s => (some s, .ok ())

/-! ### main (src/main.rs lines 90-228) -/

/-- External environment of one invocation: whether a platform config
directory exists, the result of opening and reading
manifest-tool/config.env, the template source for bulk mode, the parse of
.repo/manifest.xml, and the entries of .repo/manifests (none when read_dir
fails). -/
structure Env where
  config_dir : Option Unit
  config_open : Except String String
  template_open : Except String String
  default_manifest : Except Error ManifestData
  manifests_dir : Option (List DirEntry)

/-- Observable outcome of one run of main: its result, whether either
pipeline was reached, the bulk-mode stdout text, and the per-file output
states of the generation pipeline. -/
structure MainOutcome where
  result : RunResult Unit
  pipelineReached : Bool
  bulkOutput : Option String
  genOutputs : List (String × FileState)
deriving DecidableEq

/-- Pipeline dispatch of main (src/main.rs lines 103-227): bulk mode when
the envsubst-projects flag is given, otherwise the generation pipeline. -/
def mainPipelines (env : Env) (cli : CliArgs) (configStr : String) : MainOutcome :=
  match cli.envsubst_all_projects with
  | some _ =>
    let p := bulkRun env.template_open env.default_manifest
    ⟨p.2, true, p.1, []⟩
  | none =>
    let g := generationRun configStr cli env.manifests_dir
    ⟨g.2, true, none, g.1⟩

/-- main of src/main.rs: when a platform config directory exists, open and
read manifest-tool/config.env before anything else (lines 92-101); a
failure there aborts the run with an I/O error before either pipeline. -/
def mainRun (env : Env) (cli : CliArgs) : MainOutcome :=
  match env.config_dir with
  | none => mainPipelines env cli ""
  | some _ =>
    match env.config_open with
    | .error e => ⟨.err (Error.IoErr e), false, none, []⟩
    | .ok configStr => mainPipelines env cli configStr

/-! ### Concrete inputs used by witnesses and counterexamples -/

/-- CLI arguments with no overrides (no flags given). -/
def cliNoFlags : CliArgs := ⟨none, none, none, false, none, none, []⟩

/-- A manifest remote named origin as parsed from an upstream manifest. -/
def remoteOrigin : Remote := ⟨"origin", none, none, "https://h/x", none, none, none, none⟩

/-- A manifest with one remote and no projects. -/
def mdOneRemote : ManifestData := ⟨none, [remoteOrigin], []⟩

/-- CLI arguments giving both the review-url and the review-protocol flags. -/
def cliReview : CliArgs := ⟨none, some "https://f.example/${remote_name}.git",
  some "https://r.example/${remote_name}", false, some ReviewProtocolType.ssh, none, []⟩

/-- CLI arguments giving only a fetch-url override (spec scenario B). -/
def cliFetchOverride : CliArgs :=
  ⟨none, some "https://override.example/x.git", none, false, none, none, []⟩

/-- CLI arguments selecting bulk template mode with the stdin sentinel. -/
def cliBulk : CliArgs := ⟨none, none, none, false, none, some "-", []⟩

/-- An environment whose platform config directory exists but whose
config.env cannot be opened. -/
def envNoConfig : Env :=
  ⟨some (), .error "no config.env", .ok "", .ok mdOneRemote, none⟩

/-- A directory entry for one well-formed manifest file. -/
def entryOne : DirEntry := ⟨"m.xml", .ok mdOneRemote⟩

/-! ### Map lemmas -/

theorem ConfigMap.get_nil (k : String) : ConfigMap.get [] k = none := rfl

theorem ConfigMap.get_cons (k' v : String) (m : ConfigMap) (k : String) :
    ConfigMap.get ((k', v) :: m) k = if k' = k then some v else ConfigMap.get m k := rfl

theorem ConfigMap.get_append_some {l₁ : ConfigMap} {k v : String} (l₂ : ConfigMap)
    (h : ConfigMap.get l₁ k = some v) : ConfigMap.get (l₁ ++ l₂) k = some v := by
  induction l₁ with
  | nil => simp [ConfigMap.get] at h
  | cons p t ih =>
    obtain ⟨k', v'⟩ := p
    rw [List.cons_append]
    rw [ConfigMap.get_cons] at h ⊢
    by_cases hk : k' = k
    · simpa [hk] using h
    · rw [if_neg hk] at h ⊢
      exact ih h

theorem ConfigMap.get_append_none {l₁ : ConfigMap} {k : String} (l₂ : ConfigMap)
    (h : ConfigMap.get l₁ k = none) :
    ConfigMap.get (l₁ ++ l₂) k = ConfigMap.get l₂ k := by
  induction l₁ with
  | nil => simp
  | cons p t ih =>
    obtain ⟨k', v'⟩ := p
    rw [List.cons_append]
    rw [ConfigMap.get_cons] at h ⊢
    by_cases hk : k' = k
    · simp [hk] at h
    · rw [if_neg hk] at h ⊢
      exact ih h

theorem ConfigMap.extend_eq (m other : ConfigMap) :
    ConfigMap.extend m other = other.reverse ++ m := by
  induction other generalizing m with
  | nil => simp [ConfigMap.extend]
  | cons p t ih =>
    show ConfigMap.extend (ConfigMap.insert m p.1 p.2) t = _
    rw [ih]
    simp [ConfigMap.insert]

theorem ConfigMap.get_rev_insert_ne {k' k : String} (hne : k' ≠ k) (m : ConfigMap)
    (v : String) :
    ConfigMap.get ((ConfigMap.insert m k' v).reverse) k = ConfigMap.get m.reverse k := by
  show ConfigMap.get (((k', v) :: m).reverse) k = _
  rw [List.reverse_cons]
  cases h : ConfigMap.get m.reverse k with
  | some w => rw [ConfigMap.get_append_some _ h]
  | none => rw [ConfigMap.get_append_none _ h, ConfigMap.get_cons, if_neg hne,
      ConfigMap.get_nil]

theorem ConfigMap.get_rev_insert_self {k : String} {m : ConfigMap}
    (h : ConfigMap.get m.reverse k = none) (v : String) :
    ConfigMap.get ((ConfigMap.insert m k v).reverse) k = some v := by
  show ConfigMap.get (((k, v) :: m).reverse) k = _
  rw [List.reverse_cons, ConfigMap.get_append_none _ h, ConfigMap.get_cons, if_pos rfl]

/-! ### Inversion lemmas for the resolver -/

theorem insertSubst_ok_rev_ne {context : ConfigMap} {key : String} {f : Option String}
    {m m' : ConfigMap} (h : insertSubst context key f m = .ok m') {k : String}
    (hne : key ≠ k) :
    ConfigMap.get m'.reverse k = ConfigMap.get m.reverse k := by
  cases f with
  | none =>
    simp only [insertSubst] at h
    cases h
    rfl
  | some u =>
    simp only [insertSubst] at h
    cases hs : substitute u context with
    | error e => rw [hs] at h; simp [Except.map] at h
    | ok su =>
      rw [hs] at h
      simp only [Except.map] at h
      cases h
      exact ConfigMap.get_rev_insert_ne hne m su

theorem insertSubst_some_ok {context : ConfigMap} {key u : String} {m m' : ConfigMap}
    (h : insertSubst context key (some u) m = .ok m') {su : String}
    (hs : substitute u context = .ok su) : m' = ConfigMap.insert m key su := by
  simp only [insertSubst, hs, Except.map] at h
  cases h
  rfl

theorem insertRaw_rev_ne {key k : String} (hne : key ≠ k) (f : Option String)
    (m : ConfigMap) :
    ConfigMap.get (insertRaw key f m).reverse k = ConfigMap.get m.reverse k := by
  cases f with
  | none => rfl
  | some u => exact ConfigMap.get_rev_insert_ne hne m u

/-! ### Splitting and parsing lemmas -/

theorem splitOnceChars_eq_some {d : Char} {l a b : List Char}
    (h : splitOnceChars d l = some (a, b)) : l = a ++ d :: b ∧ d ∉ a := by
  induction l generalizing a b with
  | nil => simp [splitOnceChars] at h
  | cons c rest ih =>
    rw [splitOnceChars] at h
    by_cases hc : c = d
    · rw [if_pos hc] at h
      cases h
      subst hc
      exact ⟨rfl, List.not_mem_nil c⟩
    · rw [if_neg hc] at h
      cases hr : splitOnceChars d rest with
      | none => rw [hr] at h; simp [Option.map] at h
      | some p =>
        rw [hr] at h
        simp only [Option.map] at h
        cases h
        obtain ⟨he, hm⟩ := ih hr
        constructor
        · rw [List.cons_append, ← he]
        · intro hmem
          rcases List.mem_cons.mp hmem with h1 | h2
          · exact hc h1.symm
          · exact hm h2

theorem splitOnceChars_eq_none {d : Char} {l : List Char} (h : d ∉ l) :
    splitOnceChars d l = none := by
  induction l with
  | nil => rfl
  | cons c rest ih =>
    rw [splitOnceChars]
    have hc : ¬ c = d := fun hd => h (hd ▸ List.mem_cons_self c rest)
    rw [if_neg hc, ih (fun hm => h (List.mem_cons_of_mem c hm))]
    rfl

theorem read_dot_env_go_err {l : String} :
    ∀ (lines : List String), l ∈ lines → split_once l '=' = none →
    ∀ (map : ConfigMap), read_dot_env_go map lines = .error Error.ConfigFileFormat := by
  intro lines
  induction lines with
  | nil => intro h; exact absurd h (List.not_mem_nil l)
  | cons line rest ih =>
    intro hmem hsplit map
    rw [read_dot_env_go]
    rcases List.mem_cons.mp hmem with h1 | h2
    · subst h1
      rw [hsplit]
    · cases hs : split_once line '=' with
      | none => rfl
      | some p => exact ih h2 hsplit _

theorem substParts_ne_ok {ctx : ConfigMap} {part : List Char} {e : SubstError}
    (hpart : substPart ctx part = .error e) :
    ∀ (ps : List (List Char)), part ∈ ps →
    ∀ out, substParts ctx ps ≠ .ok out := by
  intro ps
  induction ps with
  | nil => intro h; exact absurd h (List.not_mem_nil part)
  | cons q t ih =>
    intro hmem out
    rw [substParts]
    rcases List.mem_cons.mp hmem with h1 | h2
    · subst h1
      rw [hpart]
      intro h; cases h
    · cases hq : substPart ctx q with
      | error e' => intro h; cases h
      | ok s =>
        cases ht : substParts ctx t with
        | error e' => intro h; cases h
        | ok outs => exact absurd ht (ih h2 outs)

/-! ### Claim theorems -/

/-- C2: for every template string and every variable context, substitution
fails with a SubstitutionError whenever the template references a variable
not present in the context, and no partial or blanked output is produced:
the result is an error value carrying no output, so substitution is
all-or-nothing over the whole input string. -/
theorem c2_substitution_all_or_nothing :
    ∀ (tmpl : String) (ctx : ConfigMap) (name : String),
    name ∈ templateRefs tmpl → ConfigMap.get ctx name = none →
    isSubstError (substitute tmpl ctx) = true := by
  intro tmpl ctx name href hget
  simp only [templateRefs] at href
  cases hsp : splitTemplateChars tmpl.data with
  | nil => rw [hsp] at href; simp at href
  | cons first rest =>
    rw [hsp] at href
    simp only [List.mem_filterMap] at href
    obtain ⟨part, hpmem, hpeq⟩ := href
    cases hso : splitOnceChars '}' part with
    | none => rw [hso] at hpeq; simp at hpeq
    | some pr =>
      obtain ⟨nm, tl⟩ := pr
      rw [hso] at hpeq
      simp only [Option.map] at hpeq
      cases hpeq
      have hperr : substPart ctx part = .error (SubstError.UnknownVariable (String.mk nm)) := by
        simp only [substPart, hso, hget]
      simp only [substitute, hsp]
      cases hss : substParts ctx rest with
      | error e => rfl
      | ok parts => exact absurd hss (substParts_ne_ok hperr rest hpmem parts)

/-- Witness for C2: the template referencing the single variable nope under
the empty context fails. -/
theorem c2_witness : isSubstError (substitute "${nope}" []) = true :=
  c2_substitution_all_or_nothing "${nope}" [] "nope" (by decide) rfl

/-- C6: config-file parsing splits each line at its first equals sign into
the key before it and the value after it (which may contain further equals
signs, since the key provably contains none), and any line with no equals
sign at all makes read_dot_env fail with ConfigFileFormat for the whole
input, independently of any remote. -/
theorem c6_config_line_format :
    (∀ (s k v : String), split_once s '=' = some (k, v) →
      s.data = k.data ++ '=' :: v.data ∧ '=' ∉ k.data) ∧
    (∀ (text l : String), l ∈ stringLines text → '=' ∉ l.data →
      read_dot_env (stringLines text) = .error Error.ConfigFileFormat) := by
  constructor
  · intro s k v h
    simp only [split_once] at h
    cases hso : splitOnceChars '=' s.data with
    | none => rw [hso] at h; simp at h
    | some pr =>
      obtain ⟨a, b⟩ := pr
      rw [hso] at h
      simp only [Option.map] at h
      cases h
      exact splitOnceChars_eq_some hso
  · intro text l hmem hne
    have hsplit : split_once l '=' = none := by
      simp only [split_once, splitOnceChars_eq_none hne, Option.map]
    exact read_dot_env_go_err (stringLines text) hmem hsplit []

/-- Witness for C6: a lone line badline (no equals sign) fails, and a
key=value line splits at the first equals sign. -/
theorem c6_witness :
    read_dot_env (stringLines "badline") = .error Error.ConfigFileFormat :=
  c6_config_line_format.2 "badline" "badline" (by decide) (by decide)

/-- C10: whenever the platform config directory exists but config.env
cannot be opened, the whole run aborts immediately with an I/O error,
before either pipeline (bulk included) does any work. -/
theorem c10_config_open_aborts :
    ∀ (env : Env) (cli : CliArgs) (e : String),
    env.config_dir = some () → env.config_open = .error e →
    mainRun env cli = ⟨.err (Error.IoErr e), false, none, []⟩ := by
  intro env cli e h1 h2
  simp only [mainRun]
  rw [h1, h2]

/-- Witness for C10: a missing config.env aborts even a bulk-mode run. -/
theorem c10_witness :
    mainRun envNoConfig cliBulk = ⟨.err (Error.IoErr "no config.env"), false, none, []⟩ :=
  c10_config_open_aborts envNoConfig cliBulk "no config.env" rfl rfl

/-- C7: for every project of the bulk pipeline, the variable context always
contains project_name; it contains remote_name exactly when the project
references a remote; when the referenced remote is found in the lookup
table, fetch_url is present (always) and push_url exactly when the remote
declares a push URL; when the lookup fails, both fetch_url and push_url are
simply omitted. -/
theorem c7_bulk_context :
    ∀ (h : List (String × Remote)) (p : Project),
    ConfigMap.get (buildProjectContext h p) "project_name" = some p.name ∧
    ConfigMap.get (buildProjectContext h p) "remote_name" = p.remote ∧
    (p.remote = none →
      ConfigMap.get (buildProjectContext h p) "fetch_url" = none ∧
      ConfigMap.get (buildProjectContext h p) "push_url" = none) ∧
    (∀ rn, p.remote = some rn → lookupRemote h rn = none →
      ConfigMap.get (buildProjectContext h p) "fetch_url" = none ∧
      ConfigMap.get (buildProjectContext h p) "push_url" = none) ∧
    (∀ rn r, p.remote = some rn → lookupRemote h rn = some r →
      ConfigMap.get (buildProjectContext h p) "fetch_url" = some r.fetch ∧
      ConfigMap.get (buildProjectContext h p) "push_url" = r.pushurl) := by
  intro h p
  cases hrem : p.remote with
  | none =>
    refine ⟨?_, ?_, fun _ => ⟨?_, ?_⟩, ?_, ?_⟩
    · simp [buildProjectContext, hrem, ConfigMap.insert, ConfigMap.get]
    · simp [buildProjectContext, hrem, ConfigMap.insert, ConfigMap.get]
    · simp [buildProjectContext, hrem, ConfigMap.insert, ConfigMap.get]
    · simp [buildProjectContext, hrem, ConfigMap.insert, ConfigMap.get]
    · intro rn hrn; cases hrn
    · intro rn r hrn; cases hrn
  | some rn0 =>
    cases hlook : lookupRemote h rn0 with
    | none =>
      refine ⟨?_, ?_, ?_, ?_, ?_⟩
      · simp [buildProjectContext, hrem, hlook, ConfigMap.insert, ConfigMap.get]
      · simp [buildProjectContext, hrem, hlook, ConfigMap.insert, ConfigMap.get]
      · intro hn; cases hn
      · intro rn hrn hrn2
        cases hrn
        constructor
        · simp [buildProjectContext, hrem, hlook, ConfigMap.insert, ConfigMap.get]
        · simp [buildProjectContext, hrem, hlook, ConfigMap.insert, ConfigMap.get]
      · intro rn r hrn hrn2
        cases hrn
        rw [hlook] at hrn2
        cases hrn2
    | some r0 =>
      cases hpush : r0.pushurl with
      | none =>
        refine ⟨?_, ?_, ?_, ?_, ?_⟩
        · simp [buildProjectContext, hrem, hlook, hpush, ConfigMap.insert, ConfigMap.get]
        · simp [buildProjectContext, hrem, hlook, hpush, ConfigMap.insert, ConfigMap.get]
        · intro hn; cases hn
        · intro rn hrn hrn2
          cases hrn
          rw [hlook] at hrn2
          cases hrn2
        · intro rn r hrn hrn2
          cases hrn
          rw [hlook] at hrn2
          cases hrn2
          constructor
          · simp [buildProjectContext, hrem, hlook, hpush, ConfigMap.insert, ConfigMap.get]
          · simp [buildProjectContext, hrem, hlook, hpush, ConfigMap.insert, ConfigMap.get]
      | some pu =>
        refine ⟨?_, ?_, ?_, ?_, ?_⟩
        · simp [buildProjectContext, hrem, hlook, hpush, ConfigMap.insert, ConfigMap.get]
        · simp [buildProjectContext, hrem, hlook, hpush, ConfigMap.insert, ConfigMap.get]
        · intro hn; cases hn
        · intro rn hrn hrn2
          cases hrn
          rw [hlook] at hrn2
          cases hrn2
        · intro rn r hrn hrn2
          cases hrn
          rw [hlook] at hrn2
          cases hrn2
          constructor
          · simp [buildProjectContext, hrem, hlook, hpush, ConfigMap.insert, ConfigMap.get]
          · simp [buildProjectContext, hrem, hlook, hpush, ConfigMap.insert, ConfigMap.get]

/-- Witness for C7: the project app bound to remote origin (found in the
lookup, no declared push URL) gets fetch_url and no push_url. -/
theorem c7_witness :
    ConfigMap.get (buildProjectContext (buildRemoteHash [remoteOrigin]) ⟨"app", some "origin"⟩)
      "fetch_url" = some "https://h/x" ∧
    ConfigMap.get (buildProjectContext (buildRemoteHash [remoteOrigin]) ⟨"app", some "origin"⟩)
      "push_url" = none :=
  (c7_bulk_context (buildRemoteHash [remoteOrigin]) ⟨"app", some "origin"⟩).2.2.2.2
    "origin" remoteOrigin rfl rfl

/-- C3 counterexample: with the config line fetch_url= (empty value) the
mapping resolves with an empty fetch URL, yet resolution succeeds and emits
an override Remote whose fetch is the empty string, where the claim
requires a FetchRequired failure for an absent-or-empty fetch URL. -/
theorem c3_counterexample :
    resolveRemote "fetch_url=" cliNoFlags "origin" =
      RunResult.ok ⟨"origin", none, none, "", none, none, none, some true⟩ := by
  rfl

/-- C3 (amended): the final merged mapping must contain a fetch_url key,
whose value may be empty; resolution fails with FetchRequired exactly when
the key is absent, that failure aborts resolution of the whole manifest's
remote list, and an emitted override Remote carries exactly the mapping's
fetch_url value. -/
theorem c3_fetch_required :
    ∀ (m : ConfigMap) (name : String),
    (ConfigMap.get m "fetch_url" = none ↔ mkRemote m name = .err Error.FetchRequired) ∧
    (∀ r, mkRemote m name = RunResult.ok r → ConfigMap.get m "fetch_url" = some r.fetch) ∧
    (∀ (cfg : String) (cli : CliArgs) (ns : List String),
      resolveRemote cfg cli name = .err Error.FetchRequired →
      resolveRemotes cfg cli (name :: ns) = .err Error.FetchRequired) := by
  intro m name
  refine ⟨⟨fun h => by simp [mkRemote, h], fun h => ?_⟩, fun r hr => ?_, fun cfg cli ns h => by
    simp only [resolveRemotes, h]⟩
  · cases hg : ConfigMap.get m "fetch_url" with
    | none => rfl
    | some f =>
      exfalso
      cases hrp : ConfigMap.get m "review_protocol" with
      | none => simp [mkRemote, hg, hrp] at h
      | some s =>
        cases hfs : ReviewProtocolType.from_str s with
        | none => simp [mkRemote, hg, hrp, hfs] at h
        | some p => simp [mkRemote, hg, hrp, hfs] at h
  · cases hg : ConfigMap.get m "fetch_url" with
    | none => simp [mkRemote, hg] at hr
    | some f =>
      cases hrp : ConfigMap.get m "review_protocol" with
      | none =>
        simp only [mkRemote, hg, hrp] at hr
        cases hr
        rfl
      | some s =>
        cases hfs : ReviewProtocolType.from_str s with
        | none => simp [mkRemote, hg, hrp, hfs] at hr
        | some p =>
          simp only [mkRemote, hg, hrp, hfs] at hr
          cases hr
          rfl

/-- Witness for C3 (amended): the empty mapping has no fetch_url, so Remote
construction fails with FetchRequired. -/
theorem c3_witness : mkRemote [] "origin" = .err Error.FetchRequired :=
  (c3_fetch_required [] "origin").1.mp rfl

/-- C4 counterexample: a config-format failure while processing a parsed
manifest file still leaves the output file created and truncated (the
source runs File::create before resolving the remotes), so the output path
is not left unchanged on error. -/
theorem c4_counterexample :
    processManifestFile "badline" cliNoFlags (.ok mdOneRemote) =
      (⟨true, none⟩, RunResult.err Error.ConfigFileFormat) := by
  rfl

/-- C4 (amended): no manifest content is ever written on failure — content
is written exactly when the whole file resolves successfully — but the
output path is only guaranteed untouched when the manifest itself fails to
parse; after a successful parse the output file has already been created
and truncated before any resolver failure. -/
theorem c4_no_partial_content :
    ∀ (configStr : String) (cli : CliArgs) (pr : Except Error ManifestData),
    ((processManifestFile configStr cli pr).1.content ≠ none ↔
      (processManifestFile configStr cli pr).2 = RunResult.ok ()) ∧
    (∀ e, pr = .error e → (processManifestFile configStr cli pr).1.created = false) := by
  intro configStr cli pr
  cases pr with
  | error e => simp [processManifestFile]
  | ok md =>
    constructor
    · cases hr : resolveRemotes configStr cli (md.remotes.map Remote.name) with
      | ok rs => simp [processManifestFile, hr]
      | err e => simp [processManifestFile, hr]
      | panicked => simp [processManifestFile, hr]
    · intro e he
      cases he

/-- Witness for C4 (amended): a fully successful file does write content. -/
theorem c4_witness :
    (processManifestFile "fetch_url=x" cliNoFlags (.ok mdOneRemote)).1.content ≠ none :=
  (c4_no_partial_content "fetch_url=x" cliNoFlags (.ok mdOneRemote)).1.mpr rfl

/-- C8 counterexample: two invocations that differ only in the free
manifest-file arguments produce different generation-pipeline outputs; with
an empty free list the discovered manifest is processed and written, with a
non-empty free list nothing happens at all. -/
theorem c8_counterexample :
    generationRun "fetch_url=https://h/x" cliNoFlags (some [entryOne]) ≠
      generationRun "fetch_url=https://h/x"
        { cliNoFlags with manifest_files := ["other.xml"] } (some [entryOne]) := by
  decide

/-- C8 (amended): the contents of the free manifest-file argument list are
never read by the generation pipeline, but its emptiness gates the whole
pipeline: two invocations differing only in the free list behave
identically iff their free lists are both empty or both non-empty, and any
non-empty free list makes the pipeline do nothing. -/
theorem c8_free_args_gate :
    ∀ (configStr : String) (cli : CliArgs) (fs₁ fs₂ : List String)
      (dir : Option (List DirEntry)),
    (fs₁ = [] ↔ fs₂ = []) →
    generationRun configStr { cli with manifest_files := fs₁ } dir =
      generationRun configStr { cli with manifest_files := fs₂ } dir := by
  intro configStr cli fs₁ fs₂ dir h
  cases fs₁ with
  | nil =>
    have h2 : fs₂ = [] := h.mp rfl
    subst h2
    rfl
  | cons a t =>
    cases fs₂ with
    | nil =>
      have h2 : a :: t = [] := h.mpr rfl
      cases h2
    | cons b u => rfl

/-- Witness for C8 (amended): both free lists non-empty behave the same. -/
theorem c8_witness :
    generationRun "fetch_url=https://h/x"
        { cliNoFlags with manifest_files := ["a.xml"] } (some [entryOne]) =
      generationRun "fetch_url=https://h/x"
        { cliNoFlags with manifest_files := ["b.xml", "c.xml"] } (some [entryOne]) :=
  c8_free_args_gate "fetch_url=https://h/x" cliNoFlags ["a.xml"] ["b.xml", "c.xml"]
    (some [entryOne]) (by simp)

/-- C9 counterexample: a resolved mapping whose review_protocol is not a
recognized tag makes remote construction panic (the source unwraps the
parse result), rather than failing through the Result error channel as the
claim states. -/
theorem c9_counterexample :
    resolveRemote "fetch_url=x\nreview_protocol=bogus" cliNoFlags "origin" =
      RunResult.panicked := by
  rfl

/-- C9 (amended): when the final mapping has a fetch_url and a
review_protocol value, constructing the override Remote panics exactly when
the review_protocol value is not one of the enumerated tags; a recognized
tag never reaches the panic. -/
theorem c9_protocol_panic :
    ∀ (m : ConfigMap) (name f s : String),
    ConfigMap.get m "fetch_url" = some f →
    ConfigMap.get m "review_protocol" = some s →
    (mkRemote m name = RunResult.panicked ↔ ReviewProtocolType.from_str s = none) := by
  intro m name f s h1 h2
  cases hfs : ReviewProtocolType.from_str s with
  | none => simp [mkRemote, h1, h2, hfs]
  | some p => simp [mkRemote, h1, h2, hfs]

/-- Witness for C9 (amended): the unrecognized tag bogus panics. -/
theorem c9_witness :
    mkRemote [("fetch_url", "x"), ("review_protocol", "bogus")] "origin" =
      RunResult.panicked :=
  (c9_protocol_panic [("fetch_url", "x"), ("review_protocol", "bogus")] "origin"
    "x" "bogus" rfl rfl).mpr rfl

/-- C5: for every remote and every key among fetch_url, push_url and
review_url, whenever both a config-file value and a CLI-supplied value are
present, the resolved mapping holds the substituted CLI value. -/
theorem c5_cli_overrides_config :
    ∀ (configStr : String) (cli : CliArgs) (name cs : String) (cfg m : ConfigMap),
    substitute configStr [("remote_name", name)] = .ok cs →
    read_dot_env (stringLines cs) = .ok cfg →
    resolveMapping configStr cli name = .ok m →
    (∀ u cv su, cli.fetch_url = some u → ConfigMap.get cfg "fetch_url" = some cv →
      substitute u [("remote_name", name)] = .ok su →
      ConfigMap.get m "fetch_url" = some su) ∧
    (∀ u cv su, cli.push_url = some u → ConfigMap.get cfg "push_url" = some cv →
      substitute u [("remote_name", name)] = .ok su →
      ConfigMap.get m "push_url" = some su) ∧
    (∀ u cv su, cli.review_url = some u → ConfigMap.get cfg "review_url" = some cv →
      substitute u [("remote_name", name)] = .ok su →
      ConfigMap.get m "review_url" = some su) := by
  intro configStr cli name cs cfg m hsub hread hres
  simp only [resolveMapping, hsub, hread] at hres
  simp only [buildArgsMap] at hres
  cases h1 : insertSubst [("remote_name", name)] "push_url" cli.push_url [] with
  | error e => simp only [h1] at hres; cases hres
  | ok m1 =>
    simp only [h1] at hres
    cases h2 : insertSubst [("remote_name", name)] "fetch_url" cli.fetch_url m1 with
    | error e => simp only [h2] at hres; cases hres
    | ok m2 =>
      simp only [h2] at hres
      cases h3 : insertSubst [("remote_name", name)] "review_url" cli.review_url m2 with
      | error e => simp only [h3] at hres; cases hres
      | ok m3 =>
        simp only [h3] at hres
        cases hres
        refine ⟨?_, ?_, ?_⟩
        · intro u cv su hu hcv hsu
          rw [ConfigMap.extend_eq]
          apply ConfigMap.get_append_some
          rw [insertRaw_rev_ne (show ("review_protocol" : String) ≠ "fetch_url" from by decide)]
          rw [insertSubst_ok_rev_ne h3 (show ("review_url" : String) ≠ "fetch_url" from by decide)]
          rw [hu] at h2
          rw [insertSubst_some_ok h2 hsu]
          apply ConfigMap.get_rev_insert_self
          rw [insertSubst_ok_rev_ne h1 (show ("push_url" : String) ≠ "fetch_url" from by decide)]
          rfl
        · intro u cv su hu hcv hsu
          rw [ConfigMap.extend_eq]
          apply ConfigMap.get_append_some
          rw [insertRaw_rev_ne (show ("review_protocol" : String) ≠ "push_url" from by decide)]
          rw [insertSubst_ok_rev_ne h3 (show ("review_url" : String) ≠ "push_url" from by decide)]
          rw [insertSubst_ok_rev_ne h2 (show ("fetch_url" : String) ≠ "push_url" from by decide)]
          rw [hu] at h1
          rw [insertSubst_some_ok h1 hsu]
          apply ConfigMap.get_rev_insert_self
          rfl
        · intro u cv su hu hcv hsu
          rw [ConfigMap.extend_eq]
          apply ConfigMap.get_append_some
          rw [hu]
          show ConfigMap.get ((ConfigMap.insert m3 "review_protocol" u).reverse) "review_url" = some su
          rw [ConfigMap.get_rev_insert_ne (show ("review_protocol" : String) ≠ "review_url" from by decide)]
          rw [hu] at h3
          rw [insertSubst_some_ok h3 hsu]
          apply ConfigMap.get_rev_insert_self
          rw [insertSubst_ok_rev_ne h2 (show ("fetch_url" : String) ≠ "review_url" from by decide)]
          rw [insertSubst_ok_rev_ne h1 (show ("push_url" : String) ≠ "review_url" from by decide)]
          rfl

/-- Witness for C5 (spec scenario B): with config line
fetch_url=https://example.com/origin.git (after substitution) and the CLI
fetch-url override, the resolved mapping holds the CLI value. -/
theorem c5_witness :
    ConfigMap.get
      [("fetch_url", "https://override.example/x.git"),
        ("fetch_url", "https://example.com/origin.git")] "fetch_url" =
      some "https://override.example/x.git" :=
  (c5_cli_overrides_config "fetch_url=https://example.com/${remote_name}.git"
      cliFetchOverride "origin" "fetch_url=https://example.com/origin.git"
      [("fetch_url", "https://example.com/origin.git")]
      [("fetch_url", "https://override.example/x.git"),
        ("fetch_url", "https://example.com/origin.git")]
      rfl rfl rfl).1
    "https://override.example/x.git" "https://example.com/origin.git"
    "https://override.example/x.git" rfl rfl rfl

/-- C1: evaluation of the resolver at a failing input.  With both the
review-url and review-protocol CLI flags given, the resolved mapping's
review_protocol key holds the raw (unsubstituted) review-url string — the
review-protocol flag value is ignored entirely (src/main.rs line 184 reads
args.review_url) — refuting the claim that the substituted review-protocol
flag value is inserted. -/
theorem c1_review_protocol_slip :
    cliReview.review_protocol = some ReviewProtocolType.ssh ∧
    (resolveMapping "" cliReview "origin").map
        (fun m => (ConfigMap.get m "review_protocol", ConfigMap.get m "review_url")) =
      Except.ok (some "https://r.example/${remote_name}", some "https://r.example/origin") := by
  exact ⟨rfl, rfl⟩

end ManifestTool
